import Mathlib

/-!
Verification development for the pybro DICOM anonymizer (src/rust/dicom.rs).

The Rust source is shallowly embedded as follows:

* a DICOM data set is an association list from tags to string values; the
  external dicom library operations used by the source (element lookup,
  put_element, remove_element) are modelled as list operations.  Value
  representations (VR) are dropped: no property here depends on them.
* opening a file yields an optional data set (`none` models an open failure);
  the filesystem oracles (directory creation success, write success) are
  explicit boolean parameters.
* a Rust panic (failed unwrap, out-of-range string slice) is the `panics`
  constructor of the result type; strings are treated as ASCII so the byte
  ranges of Rust slices coincide with character ranges.
* the evalexpr collaborators eval_int / eval_number are modelled on the shape
  of input this program feeds them (a dot-separated numeric UID whose dots
  were replaced by plus signs): a sum of nonempty decimal literals; any other
  string is an evaluation error.  i64 overflow inside evalexpr is not
  modelled; no claim depends on it.
* the f64 value flowing through the trailing-zero-stripping loop is modelled
  with exact arithmetic as an unnormalized integer fraction `Frac`; the loop
  itself is modelled with explicit fuel (`none` = the loop has not exited
  within the given fuel), since it does not terminate on all inputs.
* `i64::from_str_radix(_, 10)` and `str::parse::<u32>` are modelled on
  unsigned digit strings (with their overflow bounds); the sign prefixes Rust
  also accepts never reach these call sites in any claim considered here.
-/

namespace PybroDicom

/-- Constant DEFAULT_IMG_TYPE from the source. -/
def DEFAULT_IMG_TYPE : String := "UNK"

/-- A DICOM tag: a (group, element) pair, as in dicom::core::Tag. -/
structure Tag where
  group : Nat
  elem : Nat
deriving DecidableEq

/-- An in-memory DICOM data set: an association list from tags to string
values (the VRs are dropped, no claim depends on them). -/
def DicomFile : Type := List (Tag × String)

instance : DecidableEq DicomFile := by
  unfold DicomFile
  infer_instance

/-- Element lookup by tag, as dicom-rs file.element: the first entry with the
given tag, or a lookup error (none). -/
def element (f : DicomFile) (t : Tag) : Option String :=
  (f.find? (fun p => decide (p.1 = t))).map (fun p => p.2)

/-- file.put_element: replace the element with the given tag (or insert it). -/
def put_element (f : DicomFile) (t : Tag) (v : String) : DicomFile :=
  f.filter (fun p => decide (p.1 ≠ t)) ++ [(t, v)]

/-- file.remove_element: drop every element with the given tag. -/
def remove_element (f : DicomFile) (t : Tag) : DicomFile :=
  f.filter (fun p => decide (p.1 ≠ t))

/-- Lookup returning the empty string on a missing tag, the
`match ... Ok => ..., Err => "".to_string()` idiom of the source. -/
def elementOrEmpty (f : DicomFile) (t : Tag) : String :=
  (element f t).getD ""

def imgTypeOf (f : DicomFile) : String := elementOrEmpty f ⟨0x0008, 0x0008⟩
def serialOf (f : DicomFile) : String := elementOrEmpty f ⟨0x0018, 0x1000⟩
def studyDateOf (f : DicomFile) : String := elementOrEmpty f ⟨0x0008, 0x0020⟩
def studyTimeOf (f : DicomFile) : String := elementOrEmpty f ⟨0x0008, 0x0030⟩
def studyUidOf (f : DicomFile) : String := elementOrEmpty f ⟨0x0020, 0x000D⟩
def birthDateOf (f : DicomFile) : String := elementOrEmpty f ⟨0x0010, 0x0030⟩
def seriesUidOf (f : DicomFile) : String := elementOrEmpty f ⟨0x0020, 0x000E⟩
def modalityOf (f : DicomFile) : String := elementOrEmpty f ⟨0x0008, 0x0060⟩
def instNumOf (f : DicomFile) : String := elementOrEmpty f ⟨0x0020, 0x0013⟩

/-- is_dicom_file: false on an open failure, false when the ImageType tag
(0008,0008) is absent or coerces to the empty string, true otherwise. -/
def is_dicom_file (file? : Option DicomFile) : Bool :=
  match file? with
  | none => false
  | some file => !(imgTypeOf file).data.isEmpty

/-- Split a character list at every occurrence of the separator, like Rust
str::split on a one-character pattern (and String.splitOn). -/
def splitOnChar (c : Char) : List Char → List (List Char)
  | [] => [[]]
  | a :: rest =>
    match splitOnChar c rest with
    | [] => if a = c then [[], []] else [[a]]
    | g :: gs => if a = c then [] :: g :: gs else (a :: g) :: gs

/-- Numeric value of a decimal digit list (most significant first). -/
def digitsVal (l : List Char) : Nat :=
  l.foldl (fun acc c => 10 * acc + (c.toNat - 48)) 0

/-- Parse a nonempty all-digit string as a natural number. -/
def parseNatDigits (s : String) : Option Nat :=
  if !s.data.isEmpty && s.data.all Char.isDigit then some (digitsVal s.data)
  else none

/-- i64::from_str_radix(s, 10): digit strings up to i64::MAX (the sign
prefixes Rust also accepts never occur at this call site's inputs in the
claims considered). -/
def parseI64 (s : String) : Option Int :=
  (parseNatDigits s).bind
    (fun n => if n ≤ 9223372036854775807 then some ((n : Int)) else none)

/-- s.parse::<u32>(): digit strings up to u32::MAX. -/
def parseU32 (s : String) : Option Nat :=
  (parseNatDigits s).bind (fun n => if n ≤ 4294967295 then some n else none)

/-- Rust byte-range slice &s[a..b]; none models the panic on an
out-of-range index (ASCII strings: byte index = char index). -/
def sliceRange (s : String) (a b : Nat) : Option String :=
  if a ≤ b ∧ b ≤ s.data.length then
    some (String.mk ((s.data.drop a).take (b - a)))
  else none

/-- s.replace(".", "+") for the one-character pattern used by the source. -/
def dotToPlus (s : String) : String :=
  String.mk (s.data.map (fun c => if c = '.' then '+' else c))

/-- Modelled from the evalexpr collaborator: the value of a sum of nonempty
decimal literals (the shape a dot-separated UID takes after dots become
plus signs); none on any other input, modelling an evaluation error. -/
def evalPlusSum (s : String) : Option Nat :=
  let parts := splitOnChar '+' s.data
  if parts.all (fun p => !p.isEmpty && p.all Char.isDigit) then
    some (parts.foldl (fun acc p => acc + digitsVal p) 0)
  else none

/-- evalexpr::eval_int restricted as described at evalPlusSum. -/
def eval_int (s : String) : Option Int :=
  (evalPlusSum s).map (fun n => (n : Int))

/-- Uppercase hexadecimal digit of a value below 16. -/
def hexDigit (n : Nat) : Char :=
  if n < 10 then Char.ofNat (48 + n) else Char.ofNat (55 + n)

/-- Uppercase hexadecimal digits of n, most significant first (fuel-based so
that it reduces in the kernel; the fuel n always suffices). -/
def hexCore : Nat → Nat → List Char
  | 0, _ => []
  | fuel + 1, n =>
    if n = 0 then [] else hexCore fuel (n / 16) ++ [hexDigit (n % 16)]

/-- format!("{:X}", n) for a nonnegative value: uppercase hexadecimal, no
prefix, "0" for zero. -/
def hexStr (n : Nat) : String :=
  if n = 0 then "0" else String.mk (hexCore n n)

/-- format!("{:05}", k): decimal, zero-padded on the left to width 5. -/
def pad5 (k : Nat) : String :=
  String.mk (List.replicate (5 - (Nat.repr k).length) '0') ++ Nat.repr k

/-- Reformatted ImageType (source lines 91-96): third slash-separated part
when there are more than two parts, else the fallback constant. -/
def imgTypeCat (s : String) : String :=
  let parts := splitOnChar '/' s.data
  if parts.length > 2 then String.mk (parts.getD 2 []) else DEFAULT_IMG_TYPE

/-- The values derived from one file's identity seed
(source lines 91-96 and 127-141). -/
structure DerivedIdentity where
  imgType : String
  newPid : String
  newStudyDate : String
  newBirthDate : String
  newStation : String
  studyUidHex : String
deriving DecidableEq

/-- The pure derivation of the new identity values (source lines 91-96 and
109-141): none models a panic (out-of-range slice, failed integer parse, or
failed expression evaluation).  The host name is the one external input. -/
def deriveIdentity (file : DicomFile) (host : String) : Option DerivedIdentity :=
  match sliceRange (studyDateOf file) 2 8 with
  | none => none
  | some dateMid =>
    match sliceRange (studyTimeOf file) 0 4 with
    | none => none
    | some time4 =>
      match sliceRange (studyDateOf file) 0 4 with
      | none => none
      | some year4 =>
        match sliceRange (birthDateOf file) 0 4 with
        | none => none
        | some birth4 =>
          match parseI64 (serialOf file ++ dateMid ++ time4) with
          | none => none
          | some n =>
            match eval_int (dotToPlus (studyUidOf file)) with
            | none => none
            | some m =>
              some { imgType := imgTypeCat (imgTypeOf file)
                     newPid := hexStr n.toNat
                     newStudyDate := year4 ++ "0101"
                     newBirthDate := birth4 ++ "0101"
                     newStation := host
                     studyUidHex := hexStr m.toNat }

/-- Tag/value rewrites of source lines 144-156, in source order. -/
def rewriteTags (d : DerivedIdentity) : List (Tag × String) :=
  [(⟨0x0008, 0x1010⟩, d.newStation),
   (⟨0x0008, 0x0012⟩, d.newStudyDate),
   (⟨0x0008, 0x0020⟩, d.newStudyDate),
   (⟨0x0008, 0x0021⟩, d.newStudyDate),
   (⟨0x0008, 0x0022⟩, d.newStudyDate),
   (⟨0x0008, 0x0023⟩, d.newStudyDate),
   (⟨0x0008, 0x0050⟩, d.studyUidHex),
   (⟨0x0010, 0x0010⟩, d.newPid),
   (⟨0x0010, 0x0020⟩, d.newPid),
   (⟨0x0010, 0x0030⟩, d.newBirthDate),
   (⟨0x0020, 0x0010⟩, d.studyUidHex)]

/-- Application of the put_element loop of source lines 159-164. -/
def applyRewrites (f : DicomFile) (d : DerivedIdentity) : DicomFile :=
  (rewriteTags d).foldl (fun acc tv => put_element acc tv.1 tv.2) f

/-- The deletion list of source lines 167-196 (28 tags). -/
def tags_to_remove : List Tag :=
  [⟨0x0008, 0x0080⟩, ⟨0x0008, 0x0081⟩, ⟨0x0008, 0x0090⟩, ⟨0x0008, 0x0092⟩,
   ⟨0x0008, 0x0094⟩, ⟨0x0008, 0x1040⟩, ⟨0x0008, 0x1048⟩, ⟨0x0008, 0x1049⟩,
   ⟨0x0008, 0x1050⟩, ⟨0x0008, 0x1060⟩, ⟨0x0008, 0x1070⟩, ⟨0x0008, 0x1080⟩,
   ⟨0x0010, 0x1000⟩, ⟨0x0010, 0x1001⟩, ⟨0x0010, 0x1090⟩, ⟨0x0010, 0x2160⟩,
   ⟨0x0010, 0x2180⟩, ⟨0x0010, 0x21B0⟩, ⟨0x0010, 0x4000⟩, ⟨0x0032, 0x1032⟩,
   ⟨0x0032, 0x1033⟩, ⟨0x0032, 0x1060⟩, ⟨0x0040, 0x0006⟩, ⟨0x0040, 0x0241⟩,
   ⟨0x0040, 0x0275⟩, ⟨0x0040, 0x1001⟩, ⟨0x0040, 0x2004⟩, ⟨0x0040, 0xA730⟩]

/-- The remove_element loop of source lines 198-200. -/
def removeAll (f : DicomFile) : DicomFile :=
  tags_to_remove.foldl remove_element f

/-- An exact (unnormalized) fraction standing in for the f64 value the series
UID loop works on; every value it takes in this program is an integer divided
by a power of ten, which exact arithmetic represents faithfully. -/
structure Frac where
  num : Int
  den : Nat
deriving DecidableEq

/-- series_uid /= 10. -/
def fracDivTen (v : Frac) : Frac := ⟨v.num, v.den * 10⟩

/-- series_uid as i128: truncation toward zero. -/
def fracTrunc (v : Frac) : Int := Int.tdiv v.num (v.den : Int)

/-- num::integer::div_ceil: division rounding toward positive infinity. -/
def div_ceil (a b : Int) : Int := -(Int.fdiv (-a) b)

/-- Exact comparison of a fraction with an integer (the f64 comparison of the
source, under the exact-arithmetic model). -/
def fracEqInt (v : Frac) (k : Int) : Bool := v.num == k * (v.den : Int)

/-- The guard of the while loop at source line 233:
series_uid / 10 equals div_ceil(series_uid as i128, 10) as a number. -/
def stripCond (v : Frac) : Bool :=
  fracEqInt (fracDivTen v) (div_ceil (fracTrunc v) 10)

/-- The while loop of source lines 233-235, with fuel: none means the loop
has not exited within the given number of iterations. -/
def stripZeros : Nat → Frac → Option Frac
  | 0, _ => none
  | fuel + 1, v => if stripCond v then stripZeros fuel (fracDivTen v) else some v

/-- The numeric value the series loop starts from (source lines 228-232):
eval_number of the dot-to-plus series UID, or the fallback constant on an
evaluation error.  Both are integers, represented exactly. -/
def seriesValue (s : String) : Frac :=
  match evalPlusSum (dotToPlus s) with
  | some n => ⟨(n : Int), 1⟩
  | none => ⟨1234567891234567, 1⟩

/-- A write attempted by anonymize_file: the destination path (as the list of
path components joined by the source's PathBuf::join calls), the serialized
data set, and whether the write succeeded (the oracle). -/
structure WriteAttempt where
  path : List String
  content : DicomFile
  ok : Bool
deriving DecidableEq

/-- Observable outcome of anonymize_file: a Rust panic (carrying the
in-memory data set at the panic, to state mutation facts; no write has
happened), divergence in the series-UID loop, or a normal return carrying the
returned boolean, the final in-memory data set (none when the function
returned before opening its own handle), and the write attempt if any. -/
inductive AnonResult where
  | panics (mem : Option DicomFile)
  | diverges (mem : DicomFile)
  | done (ret : Bool) (mem : Option DicomFile) (written : Option WriteAttempt)
deriving DecidableEq

/-- Continuation of anonymize_file after the tag mutations (source lines
202-258), operating on the already rewritten data set file2: parent directory
creation, the naming-convention path construction with its instance-number
parse and series-UID loop, and the final write. -/
def anonymize_rest (file2 : DicomFile) (d : DerivedIdentity) (new_path : String)
    (name_convention : Bool)
    (parent_dir_ok nested_dir_ok write_ok : Bool) (fuel : Nat) : AnonResult :=
  if !parent_dir_ok then .panics (some file2)
  else if name_convention then
    match parseU32 (instNumOf file2) with
    | none => .panics (some file2)
    | some k =>
      match stripZeros fuel (seriesValue (seriesUidOf file2)) with
      | none => .diverges file2
      | some v =>
        if !nested_dir_ok then .done false (some file2) none
        else
          .done true (some file2)
            (some { path := [new_path, d.newPid, d.studyUidHex,
                             hexStr (fracTrunc v).toNat,
                             modalityOf file2 ++ "_" ++ d.imgType ++ "_"
                               ++ pad5 k ++ ".dcm"]
                    content := file2
                    ok := write_ok })
  else
    .done true (some file2)
      (some { path := [new_path], content := file2, ok := write_ok })

/-- anonymize_file (source lines 77-259).  file? is the openable content of
the source path; parent_dir_ok, nested_dir_ok and write_ok are the filesystem
oracles for the two create_dir_all calls and the final write_to_file; fuel
bounds the series-UID loop. -/
def anonymize_file (file? : Option DicomFile) (new_path : String)
    (name_convention : Bool) (host : String)
    (parent_dir_ok nested_dir_ok write_ok : Bool) (fuel : Nat) : AnonResult :=
  if !is_dicom_file file? then .done false none none
  else
    match file? with
    | none => .done false none none
    | some file =>
      if !(serialOf file).data.all Char.isDigit then .done false (some file) none
      else
        match deriveIdentity file host with
        | none => .panics (some file)
        | some d =>
          anonymize_rest (removeAll (applyRewrites file d)) d new_path
            name_convention parent_dir_ok nested_dir_ok write_ok fuel

/-- One entry produced by the WalkDir traversal: its path, whether the
metadata says it is a regular file, and its openable content. -/
structure DirEntry where
  path : String
  isFile : Bool
  content : Option DicomFile
deriving DecidableEq

/-- Outcome of the batch: an uncaught panic or divergence propagating out of
anonymize_file (carrying the success count so far), or normal completion with
the count and the Ok(true) return value. -/
inductive BatchResult where
  | panicked (countSoFar : Nat)
  | diverged (countSoFar : Nat)
  | finished (count : Nat) (ret : Bool)
deriving DecidableEq

/-- anonymize_dir (source lines 263-297): loops over the collected entries,
calls anonymize_file with the naming convention enabled, counts successes,
and finally returns Ok(true). -/
def anonymize_dir : List DirEntry → String → String → Bool → Bool → Bool →
    Nat → Nat → BatchResult
  | [], _, _, _, _, _, _, count => .finished count true
  | e :: rest, dirPath, host, pOk, nOk, wOk, fuel, count =>
    if e.isFile then
      match anonymize_file e.content dirPath true host pOk nOk wOk fuel with
      | .panics _ => .panicked count
      | .diverges _ => .diverged count
      | .done true _ _ => anonymize_dir rest dirPath host pOk nOk wOk fuel (count + 1)
      | .done false _ _ => anonymize_dir rest dirPath host pOk nOk wOk fuel count
    else
      anonymize_dir rest dirPath host pOk nOk wOk fuel count

/-- The 15-tag projection of extract_dicom_tags (source lines 304-320). -/
def tags_to_extract : List Tag :=
  [⟨0x0008, 0x0008⟩, ⟨0x0008, 0x0012⟩, ⟨0x0008, 0x0020⟩, ⟨0x0008, 0x0021⟩,
   ⟨0x0008, 0x0022⟩, ⟨0x0008, 0x0023⟩, ⟨0x0008, 0x0050⟩, ⟨0x0008, 0x0060⟩,
   ⟨0x0008, 0x1010⟩, ⟨0x0010, 0x0010⟩, ⟨0x0010, 0x0020⟩, ⟨0x0010, 0x0030⟩,
   ⟨0x0020, 0x000E⟩, ⟨0x0020, 0x0010⟩, ⟨0x0020, 0x0013⟩]

/-- Uppercase 4-digit hexadecimal rendering of a 16-bit group/element. -/
def hex4 (n : Nat) : List Char :=
  [hexDigit (n / 4096 % 16), hexDigit (n / 256 % 16),
   hexDigit (n / 16 % 16), hexDigit (n % 16)]

/-- tag.to_string() of dicom-rs: the display form used as the record key. -/
def tagKey (t : Tag) : String :=
  String.mk ('(' :: hex4 t.group ++ ',' :: hex4 t.elem ++ [')'])

/-- The record built for one gate-passing file: the source path under the key
"file", then one entry per projected tag present in the file, in projection
order (source lines 327-336). -/
def extractRecord (path : String) (f : DicomFile) : List (String × String) :=
  ("file", path) ::
    tags_to_extract.filterMap (fun t => (element f t).map (fun v => (tagKey t, v)))

/-- extract_dicom_tags (source lines 299-344) over (path, openable content)
pairs: one record per input that passes the DICOM gate, in input order. -/
def extract_dicom_tags : List (String × Option DicomFile) →
    List (String × List (String × String))
  | [] => []
  | (p, file?) :: rest =>
    match file? with
    | some f =>
      if is_dicom_file (some f) then
        (p, extractRecord p f) :: extract_dicom_tags rest
      else extract_dicom_tags rest
    | none => extract_dicom_tags rest

/-! Concrete data sets used to evaluate the embedding on specific inputs. -/

/-- A well-formed file carrying the example identity seed of the spec:
serial 12345, study date 20230615, study time 101530, study UID
1.2.840.10008, birth date 19800101. -/
def F3 : DicomFile :=
  [(⟨0x0008, 0x0008⟩, "ORIGINAL/PRIMARY/MR"),
   (⟨0x0018, 0x1000⟩, "12345"),
   (⟨0x0008, 0x0020⟩, "20230615"),
   (⟨0x0008, 0x0030⟩, "101530"),
   (⟨0x0020, 0x000D⟩, "1.2.840.10008"),
   (⟨0x0010, 0x0030⟩, "19800101")]

/-- The identity the source derives from F3 with host name HOST. -/
def dF3 : DerivedIdentity :=
  { imgType := "MR", newPid := hexStr 123452306151015,
    newStudyDate := "20230101", newBirthDate := "19800101",
    newStation := "HOST", studyUidHex := hexStr 10851 }

/-- The data set written for F3: rewrites applied, deletion list removed. -/
def F3out : DicomFile := removeAll (applyRewrites F3 dF3)

/-- A gate-passing file with a numeric serial number but a four-character
study date, too short for the slice at offsets 2..8. -/
def F1 : DicomFile :=
  [(⟨0x0008, 0x0008⟩, "ORIGINAL/PRIMARY/CT"),
   (⟨0x0018, 0x1000⟩, "42"),
   (⟨0x0008, 0x0020⟩, "2023"),
   (⟨0x0008, 0x0030⟩, "101530"),
   (⟨0x0020, 0x000D⟩, "1.2"),
   (⟨0x0010, 0x0030⟩, "19800101")]

/-- A gate-passing file with a numeric serial and well-formed dates whose
study UID 1.2.A is not a valid arithmetic expression after dot-to-plus. -/
def F4 : DicomFile :=
  [(⟨0x0008, 0x0008⟩, "A/B/C"),
   (⟨0x0018, 0x1000⟩, "7"),
   (⟨0x0008, 0x0020⟩, "20240102"),
   (⟨0x0008, 0x0030⟩, "120000"),
   (⟨0x0020, 0x000D⟩, "1.2.A"),
   (⟨0x0010, 0x0030⟩, "19900101")]

/-- A gate-passing file whose device serial number AB12 is not numeric. -/
def F4b : DicomFile :=
  [(⟨0x0008, 0x0008⟩, "A/B/C"), (⟨0x0018, 0x1000⟩, "AB12")]

/-- A fully valid file including the naming-convention tags (series UID 1.3,
modality CT, instance number 7). -/
def F7 : DicomFile :=
  [(⟨0x0008, 0x0008⟩, "ORIGINAL/PRIMARY/MR"),
   (⟨0x0018, 0x1000⟩, "12345"),
   (⟨0x0008, 0x0020⟩, "20230615"),
   (⟨0x0008, 0x0030⟩, "101530"),
   (⟨0x0020, 0x000D⟩, "1.2.840.10008"),
   (⟨0x0010, 0x0030⟩, "19800101"),
   (⟨0x0020, 0x000E⟩, "1.3"),
   (⟨0x0008, 0x0060⟩, "CT"),
   (⟨0x0020, 0x0013⟩, "7")]

/-- The identity the source derives from F7 with host name h. -/
def dF7 : DerivedIdentity :=
  { imgType := "MR", newPid := hexStr 123452306151015,
    newStudyDate := "20230101", newBirthDate := "19800101",
    newStation := "h", studyUidHex := hexStr 10851 }

/-- The data set written for F7. -/
def F7out : DicomFile := removeAll (applyRewrites F7 dF7)

/-- A gate-passing file with NO DeviceSerialNumber element at all. -/
def F10 : DicomFile :=
  [(⟨0x0008, 0x0008⟩, "A/B"),
   (⟨0x0008, 0x0020⟩, "20230615"),
   (⟨0x0008, 0x0030⟩, "1015"),
   (⟨0x0020, 0x000D⟩, "5"),
   (⟨0x0010, 0x0030⟩, "19900101")]

/-- The identity the source derives from F10 with host name h: the empty
serial number contributes nothing to the concatenated patient id. -/
def dF10 : DerivedIdentity :=
  { imgType := "UNK", newPid := hexStr 2306151015,
    newStudyDate := "20230101", newBirthDate := "19900101",
    newStation := "h", studyUidHex := hexStr 5 }

/-! Helper lemmas. -/

theorem element_filter_ne (g : DicomFile) (t : Tag) :
    element (List.filter (fun p => decide (p.1 ≠ t)) g) t = none := by
  induction g with
  | nil => rfl
  | cons a g ih =>
    by_cases h : a.1 = t
    · simpa [List.filter, h] using ih
    · simp [List.filter, h, element, List.find?]

theorem element_remove_element_self (g : DicomFile) (t : Tag) :
    element (remove_element g t) t = none :=
  element_filter_ne g t

theorem element_none_remove (g : DicomFile) (t u : Tag)
    (h : element g t = none) : element (remove_element g u) t = none := by
  induction g with
  | nil => rfl
  | cons a g ih =>
    simp only [element, List.find?, remove_element, List.filter] at h ⊢
    rcases hat : decide (a.1 = t) with _ | _
    · rw [hat] at h
      rcases hau : decide (a.1 ≠ u) with _ | _
      · exact ih h
      · simp only [List.find?, hat]
        exact ih h
    · rw [hat] at h
      simp at h

theorem element_none_foldl_remove (l : List Tag) :
    ∀ g : DicomFile, ∀ t : Tag, element g t = none →
      element (l.foldl remove_element g) t = none := by
  induction l with
  | nil => exact fun g t h => h
  | cons u l ih =>
    intro g t h
    exact ih (remove_element g u) t (element_none_remove g t u h)

theorem element_foldl_remove_of_mem (l : List Tag) :
    ∀ g : DicomFile, ∀ t : Tag, t ∈ l →
      element (l.foldl remove_element g) t = none := by
  induction l with
  | nil => intro g t h; cases h
  | cons u l ih =>
    intro g t h
    rcases List.mem_cons.mp h with h | h
    · subst h
      exact element_none_foldl_remove l (remove_element g t) t
        (element_remove_element_self g t)
    · exact ih (remove_element g u) t h

theorem element_removeAll_of_mem (g : DicomFile) (t : Tag)
    (h : t ∈ tags_to_remove) : element (removeAll g) t = none :=
  element_foldl_remove_of_mem tags_to_remove g t h


theorem deriveIdentity_some_pid {f : DicomFile} {host : String} {d : DerivedIdentity}
    (h : deriveIdentity f host = some d) :
    ∃ a b n, sliceRange (studyDateOf f) 2 8 = some a ∧
      sliceRange (studyTimeOf f) 0 4 = some b ∧
      parseI64 (serialOf f ++ a ++ b) = some n ∧ d.newPid = hexStr n.toNat := by
  unfold deriveIdentity at h
  rcases h1 : sliceRange (studyDateOf f) 2 8 with _ | a
  · simp only [h1] at h
    exact Option.noConfusion h
  simp only [h1] at h
  rcases h2 : sliceRange (studyTimeOf f) 0 4 with _ | b
  · simp only [h2] at h
    exact Option.noConfusion h
  simp only [h2] at h
  rcases h3 : sliceRange (studyDateOf f) 0 4 with _ | y
  · simp only [h3] at h
    exact Option.noConfusion h
  simp only [h3] at h
  rcases h4 : sliceRange (birthDateOf f) 0 4 with _ | z
  · simp only [h4] at h
    exact Option.noConfusion h
  simp only [h4] at h
  rcases h5 : parseI64 (serialOf f ++ a ++ b) with _ | n
  · simp only [h5] at h
    exact Option.noConfusion h
  simp only [h5] at h
  rcases h6 : eval_int (dotToPlus (studyUidOf f)) with _ | m
  · simp only [h6] at h
    exact Option.noConfusion h
  simp only [h6] at h
  cases h
  exact ⟨a, b, n, rfl, rfl, h5, rfl⟩

theorem anonymize_rest_spec (file2 : DicomFile) (d : DerivedIdentity)
    (np : String) (conv pOk nOk wOk : Bool) (fuel : Nat) (r : Bool)
    (mem : Option DicomFile) (w? : Option WriteAttempt)
    (h : anonymize_rest file2 d np conv pOk nOk wOk fuel = .done r mem w?) :
    mem = some file2 ∧
    (r = false → w? = none ∧ nOk = false) ∧
    (∀ w, w? = some w → r = true ∧ w.ok = wOk ∧ w.content = file2) := by
  unfold anonymize_rest at h
  split at h
  · cases h
  · split at h
    · split at h
      · cases h
      · split at h
        · cases h
        · split at h
          · rename_i hnOk
            cases h
            refine ⟨rfl, fun _ => ⟨rfl, by simpa using hnOk⟩, ?_⟩
            intro w hw
            cases hw
          · cases h
            refine ⟨rfl, ?_, ?_⟩
            · intro hr
              cases hr
            · intro w hw
              cases hw
              exact ⟨rfl, rfl, rfl⟩
    · cases h
      refine ⟨rfl, ?_, ?_⟩
      · intro hr
        cases hr
      · intro w hw
        cases hw
        exact ⟨rfl, rfl, rfl⟩

theorem anonymize_file_done_cases (file? : Option DicomFile) (np host : String)
    (conv pOk nOk wOk : Bool) (fuel : Nat) (r : Bool)
    (mem : Option DicomFile) (w? : Option WriteAttempt)
    (h : anonymize_file file? np conv host pOk nOk wOk fuel = .done r mem w?) :
    (is_dicom_file file? = false ∧ r = false ∧ mem = none ∧ w? = none)
    ∨ (∃ f, file? = some f ∧ is_dicom_file file? = true ∧
        (serialOf f).data.all Char.isDigit = false ∧
        r = false ∧ mem = some f ∧ w? = none)
    ∨ (∃ f d, file? = some f ∧ deriveIdentity f host = some d ∧
        anonymize_rest (removeAll (applyRewrites f d)) d np conv pOk nOk wOk fuel
          = .done r mem w?) := by
  unfold anonymize_file at h
  split at h
  · rename_i hg
    cases h
    exact Or.inl ⟨by simpa using hg, rfl, rfl, rfl⟩
  · rename_i hg
    split at h
    · cases h
      simp [is_dicom_file] at hg
    · rename_i file
      split at h
      · rename_i hs
        cases h
        exact Or.inr (Or.inl ⟨file, rfl, by simpa using hg, by simpa using hs, rfl, rfl, rfl⟩)
      · split at h
        · cases h
        · rename_i d hd
          exact Or.inr (Or.inr ⟨file, d, rfl, hd, h⟩)


theorem stripCond_zero_num (dn : Nat) : stripCond ⟨0, dn⟩ = true := by
  simp [stripCond, fracEqInt, fracDivTen, fracTrunc, div_ceil]

theorem stripZeros_zero_num (fuel : Nat) : ∀ dn : Nat, stripZeros fuel ⟨0, dn⟩ = none := by
  induction fuel with
  | zero => intro dn; rfl
  | succ m ih =>
    intro dn
    rw [stripZeros, stripCond_zero_num, if_pos rfl]
    exact ih (dn * 10)

theorem tdiv_small (a : Int) (dn : Nat) (h : a.natAbs < dn) :
    Int.tdiv a (dn : Int) = 0 := by
  cases a with
  | ofNat m =>
    have h' : m < dn := h
    show Int.ofNat (m / dn) = 0
    rw [Nat.div_eq_of_lt h']
    rfl
  | negSucc m =>
    have h' : Nat.succ m < dn := h
    show -Int.ofNat (Nat.succ m / dn) = 0
    rw [Nat.div_eq_of_lt h']
    rfl

theorem stripCond_false_of_small (v : Frac) (h0 : v.num ≠ 0)
    (hlt : v.num.natAbs < v.den) : stripCond v = false := by
  have ht : fracTrunc v = 0 := tdiv_small v.num v.den hlt
  simp [stripCond, fracEqInt, fracDivTen, ht, div_ceil]
  exact h0

theorem iterate_fracDivTen_num (n : Nat) (v : Frac) :
    (fracDivTen^[n] v).num = v.num := by
  induction n with
  | zero => rfl
  | succ m ih =>
    rw [Function.iterate_succ_apply']
    simpa [fracDivTen] using ih

theorem iterate_fracDivTen_den (n : Nat) (v : Frac) :
    (fracDivTen^[n] v).den = v.den * 10 ^ n := by
  induction n with
  | zero => simp
  | succ m ih =>
    rw [Function.iterate_succ_apply']
    simp [fracDivTen, ih, pow_succ, Nat.mul_assoc]

theorem stripZeros_exits (n : Nat) : ∀ v : Frac,
    stripCond (fracDivTen^[n] v) = false → ∃ fuel w, stripZeros fuel v = some w := by
  induction n with
  | zero =>
    intro v h
    rw [Function.iterate_zero_apply] at h
    exact ⟨1, v, by simp [stripZeros, h]⟩
  | succ m ih =>
    intro v h
    by_cases hc : stripCond v
    · obtain ⟨fuel, w, hw⟩ := ih (fracDivTen v) (by rwa [← Function.iterate_succ_apply])
      exact ⟨fuel + 1, w, by simp [stripZeros, hc, hw]⟩
    · exact ⟨1, v, by simp [stripZeros, hc]⟩

theorem stripZeros_terminates (v : Frac) (h0 : v.num ≠ 0) (hd : 0 < v.den) :
    ∃ fuel w, stripZeros fuel v = some w := by
  apply stripZeros_exits v.num.natAbs
  apply stripCond_false_of_small
  · rw [iterate_fracDivTen_num]
    exact h0
  · rw [iterate_fracDivTen_num, iterate_fracDivTen_den]
    calc v.num.natAbs < 10 ^ v.num.natAbs := Nat.lt_pow_self (by norm_num) _
    _ ≤ v.den * 10 ^ v.num.natAbs := Nat.le_mul_of_pos_left _ hd

theorem seriesValue_den (s : String) : (seriesValue s).den = 1 := by
  unfold seriesValue
  split <;> rfl


theorem tagKey_ne_file (t : Tag) : tagKey t ≠ "file" := by
  intro h
  have hd := congrArg String.data h
  rw [show String.data "file" = ['f', 'i', 'l', 'e'] from rfl] at hd
  simp [tagKey] at hd

theorem tagKey_injOn : ∀ t ∈ tags_to_extract, ∀ u ∈ tags_to_extract,
    tagKey t = tagKey u → t = u := by decide

theorem extractRecord_no_absent_key (p : String) (f : DicomFile) (t : Tag)
    (ht : t ∈ tags_to_extract) (habs : element f t = none) (v : String) :
    (tagKey t, v) ∉ extractRecord p f := by
  intro hmem
  rcases List.mem_cons.mp hmem with heq | hmem
  · exact tagKey_ne_file t (congrArg Prod.fst heq)
  · rw [List.mem_filterMap] at hmem
    obtain ⟨u, hu, hmap⟩ := hmem
    rcases hval : element f u with _ | val
    · rw [hval] at hmap
      exact Option.noConfusion hmap
    · rw [hval] at hmap
      have hpair := Option.some.inj hmap
      have hk : tagKey u = tagKey t := congrArg Prod.fst hpair
      have := tagKey_injOn u hu t ht hk
      subst this
      rw [habs] at hval
      exact Option.noConfusion hval

theorem extract_dicom_tags_eq_filterMap (l : List (String × Option DicomFile)) :
    extract_dicom_tags l = l.filterMap (fun pf =>
      match pf.2 with
      | some f =>
        if is_dicom_file (some f) then some (pf.1, extractRecord pf.1 f) else none
      | none => none) := by
  induction l with
  | nil => rfl
  | cons e rest ih =>
    obtain ⟨q, f?⟩ := e
    rcases f? with _ | f
    · simpa [extract_dicom_tags, List.filterMap_cons] using ih
    · by_cases hg : is_dicom_file (some f) <;>
        simp [extract_dicom_tags, List.filterMap_cons, hg, ih]

theorem extract_dicom_tags_mem (l : List (String × Option DicomFile))
    (p : String) (rec : List (String × String))
    (h : (p, rec) ∈ extract_dicom_tags l) :
    ∃ f, (p, some f) ∈ l ∧ is_dicom_file (some f) = true ∧
      rec = extractRecord p f := by
  induction l with
  | nil => exact absurd h (by simp [extract_dicom_tags])
  | cons e rest ih =>
    obtain ⟨q, f?⟩ := e
    rcases f? with _ | f
    · obtain ⟨g, hm, hrest⟩ := ih (by simpa [extract_dicom_tags] using h)
      exact ⟨g, List.mem_cons_of_mem _ hm, hrest⟩
    · by_cases hg : is_dicom_file (some f)
      · rw [show extract_dicom_tags ((q, some f) :: rest)
              = (q, extractRecord q f) :: extract_dicom_tags rest from by
            simp [extract_dicom_tags, hg]] at h
        rcases List.mem_cons.mp h with heq | hmem
        · have hp : p = q := congrArg Prod.fst heq
          have hr : rec = extractRecord q f := congrArg Prod.snd heq
          subst hp
          exact ⟨f, List.mem_cons_self _ _, hg, by rw [hr]⟩
        · obtain ⟨g, hm, hrest⟩ := ih hmem
          exact ⟨g, List.mem_cons_of_mem _ hm, hrest⟩
      · rw [show extract_dicom_tags ((q, some f) :: rest)
              = extract_dicom_tags rest from by simp [extract_dicom_tags, hg]] at h
        obtain ⟨g, hm, hrest⟩ := ih h
        exact ⟨g, List.mem_cons_of_mem _ hm, hrest⟩


/-! Claim theorems. -/

/-- C1, counterexample: a gate-passing file with a numeric serial number but
a four-character study date makes anonymize_file panic (the out-of-range
slice at source line 129) instead of returning "not anonymized", and the
panic aborts the whole anonymize_dir batch, contradicting the claim that
every per-file failure is caught at the file boundary. -/
theorem batch_abort_on_short_study_date :
    is_dicom_file (some F1) = true ∧
    (serialOf F1).data.all Char.isDigit = true ∧
    deriveIdentity F1 "h" = none ∧
    anonymize_file (some F1) "d" true "h" true true true 9 = .panics (some F1) ∧
    anonymize_dir [⟨"x", true, some F1⟩] "d" "h" true true true 9 0 = .panicked 0 := by
  exact ⟨by decide, by decide, by decide, by decide, by decide⟩

/-- C1, amended: the only per-file failures converted into a false return
(the "not anonymized" outcome) are the DICOM-gate rejection, the non-numeric
device serial number, and the nested directory-creation failure of the
naming-convention path, and no write is attempted on them; every other
per-file failure is a panic, and a panic in anonymize_file aborts the whole
anonymize_dir batch. -/
theorem per_file_failure_conversion_cases (file? : Option DicomFile)
    (np host : String) (conv pOk nOk wOk : Bool) (fuel : Nat)
    (mem : Option DicomFile) (w? : Option WriteAttempt) :
    (anonymize_file file? np conv host pOk nOk wOk fuel = .done false mem w? →
      w? = none ∧ (is_dicom_file file? = false
        ∨ (∃ f, file? = some f ∧ (serialOf f).data.all Char.isDigit = false)
        ∨ nOk = false))
    ∧ (∀ p rest count m,
        anonymize_file file? np true host pOk nOk wOk fuel = .panics m →
        anonymize_dir (⟨p, true, file?⟩ :: rest) np host pOk nOk wOk fuel count
          = .panicked count) := by
  constructor
  · intro h
    rcases anonymize_file_done_cases _ _ _ _ _ _ _ _ _ _ _ h with
      ⟨hg, _, _, hw⟩ | ⟨f, hf, _, hserial, _, _, hw⟩ | ⟨f, d, hf, hd, hrest⟩
    · exact ⟨hw, Or.inl hg⟩
    · exact ⟨hw, Or.inr (Or.inl ⟨f, hf, hserial⟩)⟩
    · obtain ⟨_, hfalse, _⟩ := anonymize_rest_spec _ _ _ _ _ _ _ _ _ _ _ hrest
      obtain ⟨hw, hnOk⟩ := hfalse rfl
      exact ⟨hw, Or.inr (Or.inr hnOk)⟩
  · intro p rest count m h
    simp [anonymize_dir, h]

/-- C1, witness for the amended theorem at an unopenable file. -/
theorem per_file_failure_conversion_cases_witness :
    (none : Option WriteAttempt) = none ∧ (is_dicom_file none = false
      ∨ (∃ f, (none : Option DicomFile) = some f
          ∧ (serialOf f).data.all Char.isDigit = false)
      ∨ true = false) :=
  (per_file_failure_conversion_cases none "d" "h" true true true true 0
    none none).1 (by decide)

/-- C2: the new patient id of a successful derivation is the uppercase
hexadecimal rendering of the base-10 parse of serial ++ studyDate[2..8] ++
studyTime[0..4]; a study date shorter than 8, a study time shorter than 4,
or an unparseable concatenation makes the derivation fail (no silent
truncation). -/
theorem new_pid_derivation_spec (f : DicomFile) (host : String) :
    ((studyDateOf f).length < 8 → deriveIdentity f host = none)
    ∧ ((studyTimeOf f).length < 4 → deriveIdentity f host = none)
    ∧ (∀ a b, sliceRange (studyDateOf f) 2 8 = some a →
        sliceRange (studyTimeOf f) 0 4 = some b →
        parseI64 (serialOf f ++ a ++ b) = none → deriveIdentity f host = none)
    ∧ (∀ d, deriveIdentity f host = some d → ∃ a b n,
        sliceRange (studyDateOf f) 2 8 = some a ∧
        sliceRange (studyTimeOf f) 0 4 = some b ∧
        parseI64 (serialOf f ++ a ++ b) = some n ∧ d.newPid = hexStr n.toNat) := by
  refine ⟨?_, ?_, ?_, ?_⟩
  · intro hlen
    have hs : sliceRange (studyDateOf f) 2 8 = none := by
      simp [sliceRange]
      omega
    simp [deriveIdentity, hs]
  · intro hlen
    have hs : sliceRange (studyTimeOf f) 0 4 = none := by
      simp [sliceRange]
      omega
    rcases h1 : sliceRange (studyDateOf f) 2 8 with _ | a
    · simp [deriveIdentity, h1]
    · simp [deriveIdentity, h1, hs]
  · intro a b h1 h2 h5
    rcases h3 : sliceRange (studyDateOf f) 0 4 with _ | y
    · simp [deriveIdentity, h1, h2, h3]
    · rcases h4 : sliceRange (birthDateOf f) 0 4 with _ | z
      · simp [deriveIdentity, h1, h2, h3, h4]
      · simp [deriveIdentity, h1, h2, h3, h4, h5]
  · intro d hd
    exact deriveIdentity_some_pid hd

/-- C2, witness: the successful-derivation direction evaluated on F3. -/
theorem new_pid_derivation_spec_witness :
    ∃ a b n, sliceRange (studyDateOf F3) 2 8 = some a ∧
      sliceRange (studyTimeOf F3) 0 4 = some b ∧
      parseI64 (serialOf F3 ++ a ++ b) = some n ∧ dF3.newPid = hexStr n.toNat :=
  (new_pid_derivation_spec F3 "HOST").2.2.2 dF3 (by decide)

/-- C3, counterexample: on the spec's example seed the code computes the new
patient id from "12345" ++ "230615" ++ "1015" (characters 2..8 of the study
date are "230615", not "0615"), i.e. hex 123452306151015, which differs from
the hex 1234506151015 the claim states. -/
theorem example_seed_pid_mismatch :
    (deriveIdentity F3 "HOST").map DerivedIdentity.newPid
      = some (hexStr 123452306151015) ∧
    hexStr 123452306151015 ≠ hexStr 1234506151015 := by
  exact ⟨by decide, by decide⟩

/-- C3, amended: on the example seed the derivation yields new patient id
hex(concat("12345","230615","1015")) = hex(123452306151015), new study date
20230101 and new birth date 19800101 (study-UID token hex(10851)). -/
theorem example_seed_derivation :
    deriveIdentity F3 "HOST" =
      some { imgType := "MR", newPid := hexStr 123452306151015,
             newStudyDate := "20230101", newBirthDate := "19800101",
             newStation := "HOST", studyUidHex := hexStr 10851 } := by decide

/-- C4, counterexample: a derivation failure that is not the serial check
(study UID 1.2.A is not a valid expression) makes anonymize_file panic, not
return false, contradicting the claim that it returns false whenever the
identity derivation fails. -/
theorem uid_eval_failure_panics_not_false :
    deriveIdentity F4 "h" = none ∧
    anonymize_file (some F4) "d" true "h" true true true 9 = .panics (some F4) ∧
    anonymize_file (some F4) "d" true "h" true true true 9
      ≠ .done false (some F4) none := by
  exact ⟨by decide, by decide, by decide⟩

/-- C4, amended: anonymize_file returns false with no tag mutation and no
write when the DICOM gate rejects the file or the device serial number is
not all-numeric; any other identity-derivation failure panics before any tag
mutation or write (the in-memory data set at the panic is the unchanged
input), rather than returning false. -/
theorem reject_without_mutation_cases (file? : Option DicomFile) (f : DicomFile)
    (np host : String) (conv pOk nOk wOk : Bool) (fuel : Nat) :
    (is_dicom_file file? = false →
      anonymize_file file? np conv host pOk nOk wOk fuel = .done false none none)
    ∧ (is_dicom_file (some f) = true →
      (serialOf f).data.all Char.isDigit = false →
      anonymize_file (some f) np conv host pOk nOk wOk fuel
        = .done false (some f) none)
    ∧ (is_dicom_file (some f) = true →
      (serialOf f).data.all Char.isDigit = true →
      deriveIdentity f host = none →
      anonymize_file (some f) np conv host pOk nOk wOk fuel = .panics (some f)) := by
  refine ⟨?_, ?_, ?_⟩
  · intro hg
    simp [anonymize_file, hg]
  · intro hg hs
    simp [anonymize_file, hg, hs]
  · intro hg hs hd
    simp [anonymize_file, hg, hs, hd]

/-- C4, witness for the amended theorem: the non-numeric serial AB12 is
rejected with no mutation and no write. -/
theorem reject_without_mutation_cases_witness :
    anonymize_file (some F4b) "d" true "h" true true true 9
      = .done false (some F4b) none :=
  (reject_without_mutation_cases (some F4b) F4b "d" "h" true true true true 9).2.1
    (by decide) (by decide)

/-- C5: whenever anonymize_file completes with a write, no tag of the
deletion list is present in the written data set. -/
theorem removed_tags_absent_after_success (file? : Option DicomFile)
    (np host : String) (conv pOk nOk wOk : Bool) (fuel : Nat) (r : Bool)
    (mem : Option DicomFile) (w : WriteAttempt) (t : Tag)
    (h : anonymize_file file? np conv host pOk nOk wOk fuel = .done r mem (some w))
    (ht : t ∈ tags_to_remove) : element w.content t = none := by
  rcases anonymize_file_done_cases _ _ _ _ _ _ _ _ _ _ _ h with
    ⟨_, _, _, hw⟩ | ⟨_, _, _, _, _, _, hw⟩ | ⟨f, d, _, _, hrest⟩
  · exact Option.noConfusion hw
  · exact Option.noConfusion hw
  · obtain ⟨_, _, hsome⟩ := anonymize_rest_spec _ _ _ _ _ _ _ _ _ _ _ hrest
    obtain ⟨_, _, hcontent⟩ := hsome w rfl
    rw [hcontent]
    exact element_removeAll_of_mem _ t ht

/-- C5, witness: a successful run on F3, checked at InstitutionName. -/
theorem removed_tags_absent_after_success_witness :
    element (WriteAttempt.content ⟨["d"], F3out, true⟩) ⟨0x0008, 0x0080⟩ = none :=
  removed_tags_absent_after_success (some F3) "d" "HOST" false true true true 0
    true (some F3out) ⟨["d"], F3out, true⟩ ⟨0x0008, 0x0080⟩ (by decide) (by decide)

/-- C7: if anonymize_file completes with a write attempt under a failing
write oracle, the per-file result is still true, the recorded write attempt
indeed failed, and the batch counts the file as anonymized. -/
theorem write_failure_keeps_success (file? : Option DicomFile) (np host : String)
    (pOk nOk : Bool) (fuel : Nat) (r : Bool) (mem : Option DicomFile)
    (w : WriteAttempt) (p : String) (rest : List DirEntry) (count : Nat)
    (h : anonymize_file file? np true host pOk nOk false fuel = .done r mem (some w)) :
    r = true ∧ w.ok = false ∧
      anonymize_dir (⟨p, true, file?⟩ :: rest) np host pOk nOk false fuel count =
        anonymize_dir rest np host pOk nOk false fuel (count + 1) := by
  have hr : r = true ∧ w.ok = false := by
    rcases anonymize_file_done_cases _ _ _ _ _ _ _ _ _ _ _ h with
      ⟨_, _, _, hw⟩ | ⟨_, _, _, _, _, _, hw⟩ | ⟨f, d, _, _, hrest⟩
    · exact Option.noConfusion hw
    · exact Option.noConfusion hw
    · obtain ⟨_, _, hsome⟩ := anonymize_rest_spec _ _ _ _ _ _ _ _ _ _ _ hrest
      obtain ⟨h1, h2, _⟩ := hsome w rfl
      exact ⟨h1, h2⟩
  obtain ⟨hr1, hr2⟩ := hr
  subst hr1
  refine ⟨rfl, hr2, ?_⟩
  simp [anonymize_dir, h]

/-- C7, witness: a full naming-convention run on F7 with a failing write. -/
theorem write_failure_keeps_success_witness :
    true = true ∧
    WriteAttempt.ok ⟨["d", hexStr 123452306151015, hexStr 10851, "4",
      "CT_MR_00007.dcm"], F7out, false⟩ = false ∧
    anonymize_dir [⟨"x", true, some F7⟩, ⟨"y", false, none⟩] "d" "h" true true false 2 0 =
      anonymize_dir [⟨"y", false, none⟩] "d" "h" true true false 2 1 :=
  write_failure_keeps_success (some F7) "d" "h" true true 2 true (some F7out)
    ⟨["d", hexStr 123452306151015, hexStr 10851, "4", "CT_MR_00007.dcm"], F7out, false⟩
    "x" [⟨"y", false, none⟩] 0 (by decide)

/-- C8: the identity derivation and the whole per-file transformation are
deterministic functions of the file content and the host name: equal inputs
give bit-identical outputs. -/
theorem identity_derivation_deterministic (f g : DicomFile)
    (host1 host2 np : String) (conv pOk nOk wOk : Bool) (fuel : Nat)
    (hf : f = g) (hh : host1 = host2) :
    deriveIdentity f host1 = deriveIdentity g host2 ∧
    anonymize_file (some f) np conv host1 pOk nOk wOk fuel =
      anonymize_file (some g) np conv host2 pOk nOk wOk fuel := by
  subst hf
  subst hh
  exact ⟨rfl, rfl⟩

/-- C8, witness: determinism evaluated on F3. -/
theorem identity_derivation_deterministic_witness :
    deriveIdentity F3 "HOST" = deriveIdentity F3 "HOST" ∧
    anonymize_file (some F3) "d" false "HOST" true true true 0 =
      anonymize_file (some F3) "d" false "HOST" true true true 0 :=
  identity_derivation_deterministic F3 F3 "HOST" "HOST" "d" false true true true 0
    rfl rfl


/-- C6, counterexample: a series instance UID that evaluates to 0 (for
example the value "0") makes the trailing-zero-stripping loop run forever:
0 / 10 always equals the ceiling-divide-by-10 of the truncation of 0, so the
loop never exits, contradicting the claim that every produced value
stabilizes after finitely many divisions. -/
theorem series_strip_loop_diverges_at_zero :
    seriesValue "0" = ⟨0, 1⟩ ∧
    ¬ ∃ fuel w, stripZeros fuel (seriesValue "0") = some w := by
  refine ⟨by decide, ?_⟩
  rintro ⟨fuel, w, hw⟩
  rw [show seriesValue "0" = ⟨0, 1⟩ from by decide, stripZeros_zero_num fuel 1] at hw
  exact Option.noConfusion hw

/-- C6, amended: for every series UID string whose produced numeric value
(the evaluation result, or the fallback constant) is nonzero, the loop that
divides by 10 while the quotient equals the ceiling-divide-by-10 of the
truncated value exits after finitely many iterations; the value 0 loops
forever. -/
theorem series_strip_loop_terminates_nonzero (s : String)
    (h : (seriesValue s).num ≠ 0) :
    ∃ fuel w, stripZeros fuel (seriesValue s) = some w := by
  apply stripZeros_terminates _ h
  rw [seriesValue_den]
  exact Nat.one_pos

/-- C6, witness: the loop exits on the produced value of the UID "3". -/
theorem series_strip_loop_terminates_nonzero_witness :
    (seriesValue "3").num ≠ 0 ∧
    ∃ fuel w, stripZeros fuel (seriesValue "3") = some w :=
  ⟨by decide, series_strip_loop_terminates_nonzero "3" (by decide)⟩

/-- C9: extract_dicom_tags returns exactly one record per gate-passing
input, in input order; every returned record belongs to a gate-passing file
of the input list, starts with the source path under the key "file", and has
no key for a projected tag that is absent from that file. -/
theorem extract_gate_and_omission (l : List (String × Option DicomFile)) :
    extract_dicom_tags l = l.filterMap (fun pf =>
      match pf.2 with
      | some f =>
        if is_dicom_file (some f) then some (pf.1, extractRecord pf.1 f) else none
      | none => none)
    ∧ ∀ p rec, (p, rec) ∈ extract_dicom_tags l → ∃ f,
        (p, some f) ∈ l ∧ is_dicom_file (some f) = true ∧
        rec.head? = some ("file", p) ∧
        ∀ t ∈ tags_to_extract, element f t = none →
          ∀ v, (tagKey t, v) ∉ rec := by
  refine ⟨extract_dicom_tags_eq_filterMap l, ?_⟩
  intro p rec h
  obtain ⟨f, hm, hg, hrec⟩ := extract_dicom_tags_mem l p rec h
  subst hrec
  exact ⟨f, hm, hg, rfl, fun t ht habs v => extractRecord_no_absent_key p f t ht habs v⟩

/-- C9, witness: the record membership direction evaluated on a two-entry
input list whose second entry is unopenable. -/
theorem extract_gate_and_omission_witness :
    ∃ f, ("a", some f) ∈ [("a", some F3), ("b", (none : Option DicomFile))] ∧
      is_dicom_file (some f) = true ∧
      (extractRecord "a" F3).head? = some ("file", "a") ∧
      ∀ t ∈ tags_to_extract, element f t = none →
        ∀ v, (tagKey t, v) ∉ extractRecord "a" F3 := by
  have h := (extract_gate_and_omission
    [("a", some F3), ("b", (none : Option DicomFile))]).2
    "a" (extractRecord "a" F3) (by decide)
  obtain ⟨f, hm, hg, hh, habs⟩ := h
  have hf : f = F3 := by
    rcases List.mem_cons.mp hm with heq | hmem
    · exact Option.some.inj (congrArg Prod.snd heq)
    · rcases List.mem_cons.mp hmem with heq | hmem
      · have hab : "a" = "b" := congrArg Prod.fst heq
        exact absurd hab (by decide)
      · cases hmem
  subst hf
  exact ⟨F3, hm, hg, hh, habs⟩

/-- C10: a file whose DeviceSerialNumber element is absent or empty yields
the empty serial string, which passes the all-numeric check vacuously, and
on a successful derivation the empty serial is what is concatenated with the
date and time substrings to form the new patient id. -/
theorem empty_serial_passes_check (f : DicomFile) (host : String)
    (hs : element f ⟨0x0018, 0x1000⟩ = none ∨ element f ⟨0x0018, 0x1000⟩ = some "") :
    serialOf f = "" ∧ (serialOf f).data.all Char.isDigit = true ∧
    ∀ d, deriveIdentity f host = some d → ∃ a b n,
      sliceRange (studyDateOf f) 2 8 = some a ∧
      sliceRange (studyTimeOf f) 0 4 = some b ∧
      parseI64 ("" ++ a ++ b) = some n ∧ d.newPid = hexStr n.toNat := by
  have hser : serialOf f = "" := by
    rcases hs with h | h <;> simp [serialOf, elementOrEmpty, h]
  refine ⟨hser, by rw [hser]; rfl, ?_⟩
  intro d hd
  obtain ⟨a, b, n, h1, h2, h5, hp⟩ := deriveIdentity_some_pid hd
  rw [hser] at h5
  exact ⟨a, b, n, h1, h2, h5, hp⟩

/-- C10, witness: evaluated on F10, which has no DeviceSerialNumber element;
the derivation succeeds and the new patient id comes from the date and time
substrings alone. -/
theorem empty_serial_passes_check_witness :
    serialOf F10 = "" ∧ (serialOf F10).data.all Char.isDigit = true ∧
    (∃ a b n, sliceRange (studyDateOf F10) 2 8 = some a ∧
      sliceRange (studyTimeOf F10) 0 4 = some b ∧
      parseI64 ("" ++ a ++ b) = some n ∧ dF10.newPid = hexStr n.toNat) := by
  have h := empty_serial_passes_check F10 "h" (Or.inl (by decide))
  exact ⟨h.1, h.2.1, h.2.2 dF10 (by decide)⟩

end PybroDicom